import Mathlib

/-!
Shallow embedding of the ETS (emissions trading) core pipeline of
`ets_model.py` (function `ets_hesapla`, steps 3–7) and of the market-curve
scan of `streamlit_app.py` (function `build_market_curve`).

Python float arithmetic is modelled exactly over `ℚ`; the claims under
study are algebraic/structural, so rational arithmetic is the faithful
idealisation.  `NaN`-dropping steps (`dropna`) are vacuous over total
rationals and are noted where they occur.

An `Entity` is one row of the working dataframe `x` after the benchmark
assignment of step 2: its `benchmark` field is the `B_fuel` value the chosen
benchmark strategy assigned to the row, so every strategy is covered by
quantifying over this field.
-/

namespace ETS

/-- Epsilon `1e-9` used in the bid/ask quantity normalisation
(`ets_model.py` lines 232 and 240). -/
def epsNorm : ℚ := 1 / 1000000000

/-- Epsilon `1e-6` used in the market-curve denominators
(`streamlit_app.py` lines 267 and 276). -/
def epsCurve : ℚ := 1 / 1000000

/-- `np.clip(x, lo, hi) = minimum(hi, maximum(lo, x))`. -/
def clip (x lo hi : ℚ) : ℚ := min hi (max lo x)

/-- One row of the working dataframe: emissions, generation, and the
benchmark `B_fuel` assigned to the row by the chosen strategy. -/
structure Entity where
  emissions : ℚ
  generation : ℚ
  benchmark : ℚ
deriving Repr, DecidableEq

/-- The scalar configuration parameters of `ets_hesapla` used by steps 3–7. -/
structure Config where
  priceMin : ℚ
  priceMax : ℚ
  agk : ℚ
  spread : ℚ
  trf : ℚ
  auctionSupplyShare : ℚ
deriving Repr, DecidableEq

/-- Line 112: `x = x[x["Generation_MWh"] > 0]` (the preceding `dropna` is
vacuous over `ℚ`). -/
def prep (df : List Entity) : List Entity :=
  df.filter (fun e => decide (0 < e.generation))

/-- Line 115: `x["intensity"] = Emissions_tCO2 / Generation_MWh`. -/
def intensity (e : Entity) : ℚ := e.emissions / e.generation

/-- Line 198 (scalar form): `EI_eff = B_fuel + (intensity - B_fuel) * (1 - agk)`. -/
def eiEff (b ei agk : ℚ) : ℚ := b + (ei - b) * (1 - agk)

/-- Line 198 applied to a row. -/
def EI_eff (c : Config) (e : Entity) : ℚ := eiEff e.benchmark (intensity e) c.agk

/-- Line 202: `x["alloc"] = B_fuel * Generation_MWh`. -/
def alloc (e : Entity) : ℚ := e.benchmark * e.generation

/-- Line 203: `x["net_ets"] = Emissions_tCO2 - alloc`. -/
def net_ets0 (e : Entity) : ℚ := e.emissions - alloc e

/-- Lines 208–213: when `trf > 0`, net positions of rows with
`intensity > B_fuel` are scaled by `(1 - trf)`. -/
def net_ets (c : Config) (e : Entity) : ℚ :=
  if 0 < c.trf ∧ e.benchmark < intensity e then net_ets0 e * (1 - c.trf)
  else net_ets0 e

/-- Lines 227–228: `_clamp(p) = np.clip(p, price_min, price_max)`. -/
def clamp (c : Config) (p : ℚ) : ℚ := clip p c.priceMin c.priceMax

/-- Line 224: rows with positive net position. -/
def buyersOf (c : Config) (rows : List Entity) : List Entity :=
  rows.filter (fun e => decide (0 < net_ets c e))

/-- Line 225: rows with negative net position. -/
def sellersOf (c : Config) (rows : List Entity) : List Entity :=
  rows.filter (fun e => decide (net_ets c e < 0))

/-- Pandas `Series.min` over a nonempty column (0 on an empty one, a case
the source never evaluates). -/
def qMinL : List ℚ → ℚ
  | [] => 0
  | q :: qs => qs.foldl min q

/-- Pandas `Series.max`, same convention. -/
def qMaxL : List ℚ → ℚ
  | [] => 0
  | q :: qs => qs.foldl max q

/-- Lines 232 and 240: `qn = (q - q.min()) / (q.max() - q.min() + 1e-9)`. -/
def zNorm (qs : List ℚ) (q : ℚ) : ℚ :=
  (q - qMinL qs) / (qMaxL qs - qMinL qs + epsNorm)

/-- Lines 233–234: `p_bid = _clamp(price_min + (price_max - price_min) *
(0.2 + 0.8 * qn)) + spread / 2`. -/
def p_bid (c : Config) (qs : List ℚ) (q : ℚ) : ℚ :=
  clamp c (c.priceMin + (c.priceMax - c.priceMin) * (1/5 + 4/5 * zNorm qs q))
    + c.spread / 2

/-- Lines 241–242: `p_ask = _clamp(price_min + (price_max - price_min) *
(0.2 + 0.8 * qn)) - spread / 2`. -/
def p_ask (c : Config) (qs : List ℚ) (q : ℚ) : ℚ :=
  clamp c (c.priceMin + (c.priceMax - c.priceMin) * (1/5 + 4/5 * zNorm qs q))
    - c.spread / 2

/-- The buyers' `net_ets` column (the series `q` of line 231). -/
def bidQs (c : Config) (rows : List Entity) : List ℚ :=
  (buyersOf c rows).map (net_ets c)

/-- The sellers' surplus column (the series `q = -net_ets` of line 239). -/
def askQs (c : Config) (rows : List Entity) : List ℚ :=
  (sellersOf c rows).map (fun e => -net_ets c e)

/-- The bid quoted to row `e`, normalised against the whole buyer column. -/
def bidOf (c : Config) (rows : List Entity) (e : Entity) : ℚ :=
  p_bid c (bidQs c rows) (net_ets c e)

/-- The ask quoted to row `e`, normalised against the whole seller column. -/
def askOf (c : Config) (rows : List Entity) (e : Entity) : ℚ :=
  p_ask c (askQs c rows) (-net_ets c e)

/-- Line 249: `demand = x.loc[net_ets > 0, "net_ets"].sum()`. -/
def demandOf (c : Config) (rows : List Entity) : ℚ := (bidQs c rows).sum

/-- Line 250: `supply_surplus = (-x.loc[net_ets < 0, "net_ets"]).sum()`. -/
def supplyOf (c : Config) (rows : List Entity) : ℚ := (askQs c rows).sum

/-- The `price_method` argument of `ets_hesapla`. -/
inductive PriceMethod
  | averageComplianceCost
  | auctionClearing
  | marketClearing
deriving Repr, DecidableEq

/-- Lines 248–286: the clearing-price block of `ets_hesapla`, with the
`let`-bound locals of each branch inlined.
Average Compliance Cost (254–258): `nanmean` of the buyers' bids (all bids
are finite here, so it is sum/length) when `demand > 0`, else the initial
`price_min`; then clipped.
Auction Clearing (260–272): `supply = demand * auction_supply_share`;
`scarcity = clip(1 - supply/demand, -1, 1)`; affine scarcity proxy, clipped.
(The local `traded = min(demand, supply)` of line 263 is dead for the price.)
Market Clearing (274–286): same proxy with `ratio = supply_surplus/demand`. -/
def clearingPrice (c : Config) (m : PriceMethod) (rows : List Entity) : ℚ :=
  match m with
  | .averageComplianceCost =>
      clamp c (if 0 < demandOf c rows then
          ((buyersOf c rows).map (bidOf c rows)).sum / ((buyersOf c rows).length : ℚ)
        else c.priceMin)
  | .auctionClearing =>
      clamp c (if 0 < demandOf c rows then
          c.priceMin + (c.priceMax - c.priceMin) *
            clip (1/2 + 1/2 *
              clip (1 - demandOf c rows * c.auctionSupplyShare / demandOf c rows) (-1) 1) 0 1
        else c.priceMin)
  | .marketClearing =>
      clamp c (if demandOf c rows ≤ 0 then c.priceMin
        else c.priceMin + (c.priceMax - c.priceMin) *
          clip (1/2 + 1/2 *
            clip (1 - supplyOf c rows / demandOf c rows) (-1) 1) 0 1)

/-- The pipeline from the raw dataframe to the returned `clearing_price`:
row filtering (line 112) followed by the clearing block. -/
def etsClearingPrice (c : Config) (m : PriceMethod) (df : List Entity) : ℚ :=
  clearingPrice c m (prep df)

/-- Lines 264–269 of `streamlit_app.py`: aggregate demand at candidate
price `p`, over `(net_ets, p_bid)` pairs of the buyers. -/
def demandAt (priceLo : ℚ) (buyers : List (ℚ × ℚ)) (p : ℚ) : ℚ :=
  (buyers.map (fun b => b.1 * clip (1 - (p - priceLo) / max (b.2 - priceLo) epsCurve) 0 1)).sum

/-- Lines 273–278 of `streamlit_app.py`: aggregate supply at candidate
price `p`, over `(-net_ets, p_ask)` pairs of the sellers. -/
def supplyAt (priceHi : ℚ) (sellers : List (ℚ × ℚ)) (p : ℚ) : ℚ :=
  (sellers.map (fun s => s.1 * clip ((p - s.2) / max (priceHi - s.2) epsCurve) 0 1)).sum

/-- Line 257 of `streamlit_app.py`: `np.arange(price_min, price_max + step,
step)` — the candidate grid from `priceLo` to `priceHi` at a fixed step. -/
def priceGrid (priceLo priceHi step : ℚ) : List ℚ :=
  (List.range (⌊(priceHi - priceLo) / step⌋.toNat + 1)).map
    (fun i => priceLo + (i : ℚ) * step)

/-- The scan price the spec describes on top of `build_market_curve`: the
first grid price `p` with `supply(p) ≥ demand(p)`, else `priceHi`. -/
def scanClearingPrice (priceLo priceHi step : ℚ)
    (buyers sellers : List (ℚ × ℚ)) : ℚ :=
  match (priceGrid priceLo priceHi step).find?
      (fun p => decide (demandAt priceLo buyers p ≤ supplyAt priceHi sellers p)) with
  | some p => p
  | none => priceHi

/-- The `(net_ets, p_bid)` book fed to the market curve. -/
def buyerBook (c : Config) (rows : List Entity) : List (ℚ × ℚ) :=
  (buyersOf c rows).map (fun e => (net_ets c e, bidOf c rows e))

/-- The `(-net_ets, p_ask)` book fed to the market curve. -/
def sellerBook (c : Config) (rows : List Entity) : List (ℚ × ℚ) :=
  (sellersOf c rows).map (fun e => (-net_ets c e, askOf c rows e))

/-! ### Helper lemmas about `clip`, `clamp` and the column extrema -/

lemma clip_le_hi (x lo hi : ℚ) : clip x lo hi ≤ hi := min_le_left _ _

lemma lo_le_clip (x lo hi : ℚ) (h : lo ≤ hi) : lo ≤ clip x lo hi :=
  le_min h (le_max_left _ _)

lemma clip_eq_of_mem (x lo hi : ℚ) (h1 : lo ≤ x) (h2 : x ≤ hi) :
    clip x lo hi = x := by
  unfold clip
  rw [max_eq_right h1, min_eq_right h2]

lemma clip_eq_hi_of_le (x lo hi : ℚ) (h : hi ≤ lo) : clip x lo hi = hi := by
  unfold clip
  exact min_eq_left (le_trans h (le_max_left _ _))

lemma clip01_nonneg (x : ℚ) : 0 ≤ clip x 0 1 :=
  le_min (by norm_num) (le_max_left _ _)

lemma clip01_le_one (x : ℚ) : clip x 0 1 ≤ 1 := min_le_left _ _

/-- The affine scarcity proxy stays inside the band, so the final clamp is
the identity on it. -/
lemma clamp_affine (c : Config) (h : c.priceMin ≤ c.priceMax) (s : ℚ) :
    clamp c (c.priceMin + (c.priceMax - c.priceMin) * clip s 0 1) =
      c.priceMin + (c.priceMax - c.priceMin) * clip s 0 1 := by
  have h0 := clip01_nonneg s
  have h1 := clip01_le_one s
  apply clip_eq_of_mem
  · nlinarith
  · nlinarith

lemma foldl_min_le_init (a : ℚ) (l : List ℚ) : l.foldl min a ≤ a := by
  induction l generalizing a with
  | nil => simp
  | cons x xs ih => exact le_trans (ih (min a x)) (min_le_left a x)

lemma foldl_min_le_mem {b : ℚ} (a : ℚ) {l : List ℚ} (h : b ∈ l) :
    l.foldl min a ≤ b := by
  induction l generalizing a with
  | nil => cases h
  | cons x xs ih =>
      simp only [List.foldl_cons]
      rcases List.mem_cons.mp h with rfl | h2
      · exact le_trans (foldl_min_le_init _ _) (min_le_right a b)
      · exact ih _ h2

lemma init_le_foldl_max (a : ℚ) (l : List ℚ) : a ≤ l.foldl max a := by
  induction l generalizing a with
  | nil => simp
  | cons x xs ih => exact le_trans (le_max_left a x) (ih (max a x))

lemma mem_le_foldl_max {b : ℚ} (a : ℚ) {l : List ℚ} (h : b ∈ l) :
    b ≤ l.foldl max a := by
  induction l generalizing a with
  | nil => cases h
  | cons x xs ih =>
      simp only [List.foldl_cons]
      rcases List.mem_cons.mp h with rfl | h2
      · exact le_trans (le_max_right a b) (init_le_foldl_max _ _)
      · exact ih _ h2

lemma qMinL_le_of_mem {q : ℚ} {qs : List ℚ} (h : q ∈ qs) : qMinL qs ≤ q := by
  cases qs with
  | nil => cases h
  | cons a l =>
      rcases List.mem_cons.mp h with rfl | h2
      · exact foldl_min_le_init _ _
      · exact foldl_min_le_mem _ h2

lemma le_qMaxL_of_mem {q : ℚ} {qs : List ℚ} (h : q ∈ qs) : q ≤ qMaxL qs := by
  cases qs with
  | nil => cases h
  | cons a l =>
      rcases List.mem_cons.mp h with rfl | h2
      · exact init_le_foldl_max _ _
      · exact mem_le_foldl_max _ h2

lemma mem_buyersOf_pos {c : Config} {rows : List Entity} {e : Entity}
    (h : e ∈ buyersOf c rows) : 0 < net_ets c e := by
  have h2 := (List.mem_filter.mp h).2
  exact of_decide_eq_true h2

/-- Aggregate demand is positive exactly when the buyer set is nonempty. -/
lemma demandOf_pos {c : Config} {rows : List Entity}
    (hb : buyersOf c rows ≠ []) : 0 < demandOf c rows := by
  unfold demandOf bidQs
  apply List.sum_pos
  · intro q hq
    rcases List.mem_map.mp hq with ⟨e, he, rfl⟩
    exact mem_buyersOf_pos he
  · simpa using hb

lemma clamp_priceMin (c : Config) (h : c.priceMin ≤ c.priceMax) :
    clamp c c.priceMin = c.priceMin := clip_eq_of_mem _ _ _ le_rfl h

/-! ### Claim theorems -/

/-- C2 (counterexample): with band [0,4], one buyer (net +10, bid 4/5) and
one seller (net −10, ask 4/5), the grid scan of `build_market_curve` first
reaches supply ≥ demand at price 1, but `ets_hesapla` returns the scarcity
proxy price 2: the returned clearing price is not the scan price. -/
theorem C2_counterexample :
    etsClearingPrice ⟨0, 4, 0, 0, 0, 1⟩ .marketClearing [⟨10, 1, 0⟩, ⟨0, 1, 10⟩] ≠
      scanClearingPrice 0 4 1
        (buyerBook ⟨0, 4, 0, 0, 0, 1⟩ (prep [⟨10, 1, 0⟩, ⟨0, 1, 10⟩]))
        (sellerBook ⟨0, 4, 0, 0, 0, 1⟩ (prep [⟨10, 1, 0⟩, ⟨0, 1, 10⟩])) := by
  have hb : buyerBook ⟨0, 4, 0, 0, 0, 1⟩ (prep [⟨10, 1, 0⟩, ⟨0, 1, 10⟩]) = [(10, 4/5)] := by
    norm_num [buyerBook, prep, buyersOf, net_ets, net_ets0, alloc, intensity,
      bidOf, p_bid, bidQs, zNorm, qMinL, qMaxL, epsNorm, clamp, clip,
      List.filter, min_def, max_def]
  have hs : sellerBook ⟨0, 4, 0, 0, 0, 1⟩ (prep [⟨10, 1, 0⟩, ⟨0, 1, 10⟩]) = [(10, 4/5)] := by
    norm_num [sellerBook, prep, sellersOf, net_ets, net_ets0, alloc, intensity,
      askOf, p_ask, askQs, zNorm, qMinL, qMaxL, epsNorm, clamp, clip,
      List.filter, min_def, max_def]
  have hcode :
      etsClearingPrice ⟨0, 4, 0, 0, 0, 1⟩ .marketClearing [⟨10, 1, 0⟩, ⟨0, 1, 10⟩] = 2 := by
    norm_num [etsClearingPrice, clearingPrice, prep, demandOf, supplyOf, bidQs, askQs,
      buyersOf, sellersOf, net_ets, net_ets0, alloc, intensity, clamp, clip,
      List.filter, min_def, max_def]
  have hscan : scanClearingPrice 0 4 1 [(10, 4/5)] [(10, 4/5)] = 1 := by
    have h4 : ((4:ℚ) - 0) / 1 = 4 := by norm_num
    have hf : (⌊(4:ℚ)⌋).toNat = 4 := by simp
    have hg : priceGrid 0 4 1 = [0, 1, 2, 3, 4] := by
      rw [priceGrid, h4, hf]
      norm_num [List.range_succ]
    rw [scanClearingPrice, hg]
    norm_num [List.find?, demandAt, supplyAt, epsCurve, clip, min_def, max_def]
  rw [hcode, hb, hs, hscan]
  norm_num

/-- C2 (amended): under market clearing the returned price is the scarcity
proxy of lines 274–286, not a grid-scan intersection: priceMin when
aggregate demand ≤ 0, otherwise the affine image of the clipped scarcity
1 − supply/demand (the final clamp is the identity when priceMin < priceMax). -/
theorem C2_market_price_is_proxy (c : Config) (rows : List Entity)
    (h : c.priceMin < c.priceMax) :
    etsClearingPrice c .marketClearing rows =
      (if demandOf c (prep rows) ≤ 0 then c.priceMin
       else c.priceMin + (c.priceMax - c.priceMin) *
         clip (1/2 + 1/2 *
           clip (1 - supplyOf c (prep rows) / demandOf c (prep rows)) (-1) 1) 0 1) := by
  simp only [etsClearingPrice, clearingPrice]
  by_cases hd : demandOf c (prep rows) ≤ 0
  · rw [if_pos hd]
    exact clamp_priceMin c h.le
  · rw [if_neg hd]
    exact clamp_affine c h.le _

/-- Witness for C2 at a concrete configuration and an empty market. -/
theorem C2_witness :
    (0:ℚ) < 100 ∧
      etsClearingPrice ⟨0, 100, 0, 0, 0, 1⟩ .marketClearing [] = 0 := by
  constructor
  · norm_num
  · rw [C2_market_price_is_proxy ⟨0, 100, 0, 0, 0, 1⟩ [] (by norm_num)]
    norm_num [demandOf, bidQs, buyersOf, prep, List.filter]

/-- C3 (counterexample): with auctionSupplyShare = 1 (supply = demand) and
one net buyer, the code returns the band midpoint 50, not priceMin = 0 as
the claim states. -/
theorem C3_counterexample :
    etsClearingPrice ⟨0, 100, 0, 0, 0, 1⟩ .auctionClearing [⟨10, 1, 0⟩] ≠ (0:ℚ) := by
  norm_num [etsClearingPrice, clearingPrice, prep, demandOf, bidQs,
    buyersOf, net_ets, net_ets0, alloc, intensity, clamp, clip,
    List.filter, min_def, max_def]

/-- C3 (amended): under auction clearing the price is the scarcity proxy of
lines 260–272 — when demand > 0 it is the affine image of the clipped
scarcity 1 − auctionSupplyShare (midpoint at share 1, priceMin only from
share ≥ 2), else priceMin; no buyer is ever sorted or made marginal. -/
theorem C3_auction_price_is_proxy (c : Config) (rows : List Entity)
    (h : c.priceMin < c.priceMax) :
    etsClearingPrice c .auctionClearing rows =
      (if 0 < demandOf c (prep rows) then
         c.priceMin + (c.priceMax - c.priceMin) *
           clip (1/2 + 1/2 * clip (1 - c.auctionSupplyShare) (-1) 1) 0 1
       else c.priceMin) := by
  simp only [etsClearingPrice, clearingPrice]
  by_cases hd : 0 < demandOf c (prep rows)
  · rw [if_pos hd, mul_div_cancel_left₀ _ (ne_of_gt hd), if_pos hd]
    exact clamp_affine c h.le _
  · rw [if_neg hd, if_neg hd]
    exact clamp_priceMin c h.le

/-- Witness for C3 at a concrete configuration and an empty market. -/
theorem C3_witness :
    (0:ℚ) < 100 ∧
      etsClearingPrice ⟨0, 100, 0, 0, 0, 3⟩ .auctionClearing [] = 0 := by
  constructor
  · norm_num
  · rw [C3_auction_price_is_proxy ⟨0, 100, 0, 0, 0, 3⟩ [] (by norm_num)]
    norm_num [demandOf, bidQs, buyersOf, prep, List.filter]

/-- C4 (counterexample): two buyers with net positions 1 and 3 and distinct
bids: the code's unweighted mean of bids differs from the claimed
netPosition-weighted average Σ(net × bid)/Σ(net), clamped. -/
theorem C4_counterexample :
    etsClearingPrice ⟨0, 100, 0, 0, 0, 1⟩ .averageComplianceCost [⟨1, 1, 0⟩, ⟨3, 1, 0⟩] ≠
      clamp ⟨0, 100, 0, 0, 0, 1⟩
        ((((buyersOf ⟨0, 100, 0, 0, 0, 1⟩ (prep [⟨1, 1, 0⟩, ⟨3, 1, 0⟩])).map
            (fun e => net_ets ⟨0, 100, 0, 0, 0, 1⟩ e *
              bidOf ⟨0, 100, 0, 0, 0, 1⟩ (prep [⟨1, 1, 0⟩, ⟨3, 1, 0⟩]) e)).sum) /
          (bidQs ⟨0, 100, 0, 0, 0, 1⟩ (prep [⟨1, 1, 0⟩, ⟨3, 1, 0⟩])).sum) := by
  norm_num [etsClearingPrice, clearingPrice, prep, demandOf, bidQs,
    buyersOf, net_ets, net_ets0, alloc, intensity, bidOf, p_bid, zNorm,
    qMinL, qMaxL, epsNorm, clamp, clip, List.filter, min_def, max_def]

/-- C4 (amended): under average compliance cost the price is the clamp of
the unweighted arithmetic mean of the buyers' bids (lines 254–258); with no
buyers it is the clamp of priceMin. -/
theorem C4_avg_price_is_unweighted_mean (c : Config) (rows : List Entity) :
    etsClearingPrice c .averageComplianceCost rows =
      (if buyersOf c (prep rows) = [] then clamp c c.priceMin
       else clamp c (((buyersOf c (prep rows)).map (bidOf c (prep rows))).sum /
         ((buyersOf c (prep rows)).length : ℚ))) := by
  simp only [etsClearingPrice, clearingPrice]
  by_cases hb : buyersOf c (prep rows) = []
  · have hd : ¬ 0 < demandOf c (prep rows) := by
      simp [demandOf, bidQs, hb]
    rw [if_neg hd, if_pos hb]
  · have hd : 0 < demandOf c (prep rows) := demandOf_pos hb
    rw [if_pos hd, if_neg hb]

/-- C1 (counterexample): with smoothing 0, transitional factor 0 and free
share at its default, the free allocation of the entity with emissions 50,
output 100 and benchmark 2/5 is 40 = output × benchmark, not
50 = output × allocationIntensity as the claim states. -/
theorem C1_counterexample :
    ¬ (alloc ⟨50, 100, 2/5⟩ =
        (100 : ℚ) * EI_eff ⟨0, 100, 0, 0, 0, 1⟩ ⟨50, 100, 2/5⟩) := by
  norm_num [alloc, EI_eff, eiEff, intensity]

/-- C1 (amended): the code allocates output × benchmark — that is, output ×
allocationIntensity evaluated at smoothing = 1 — irrespective of the
configured smoothing; the smoothed intensity is computed but unused here. -/
theorem C1_alloc_is_benchmark_alloc (c : Config) (e : Entity) :
    alloc e = e.generation * EI_eff { c with agk := 1 } e := by
  simp only [alloc, EI_eff, eiEff]
  ring

/-- C5: for any configuration with priceMax > priceMin, any pricing regime
and any input rows, the returned clearing price lies in
[priceMin, priceMax]. -/
theorem C5_price_within_band (c : Config) (m : PriceMethod) (rows : List Entity)
    (h : c.priceMin < c.priceMax) :
    c.priceMin ≤ etsClearingPrice c m rows ∧
      etsClearingPrice c m rows ≤ c.priceMax := by
  cases m <;>
  · simp only [etsClearingPrice, clearingPrice, clamp]
    exact ⟨lo_le_clip _ _ _ h.le, clip_le_hi _ _ _⟩

/-- Witness for C5 at a concrete configuration and input. -/
theorem C5_witness :
    (0:ℚ) < 100 ∧
      ((0:ℚ) ≤ etsClearingPrice ⟨0, 100, 0, 0, 0, 1⟩ .marketClearing [⟨10, 1, 0⟩] ∧
        etsClearingPrice ⟨0, 100, 0, 0, 0, 1⟩ .marketClearing [⟨10, 1, 0⟩] ≤ 100) :=
  ⟨by norm_num,
    C5_price_within_band ⟨0, 100, 0, 0, 0, 1⟩ .marketClearing [⟨10, 1, 0⟩] (by norm_num)⟩

/-- C6 (counterexample): with priceMax = 0 ≤ priceMin = 10 and smoothing
agk = 2 outside [0,1], no error is raised: the pipeline runs to completion
and returns the clearing price 0. -/
theorem C6_counterexample :
    etsClearingPrice ⟨10, 0, 2, 0, 0, 1⟩ .marketClearing [⟨10, 1, 0⟩] = 0 := by
  norm_num [etsClearingPrice, clearingPrice, prep, demandOf, supplyOf, bidQs, askQs,
    buyersOf, sellersOf, net_ets, net_ets0, alloc, intensity, clamp, clip,
    List.filter, min_def, max_def]

/-- C6 (amended): no configuration validation exists: the pipeline computes
a result for every priceMin/priceMax/smoothing, and when
priceMax ≤ priceMin the final clamp makes every regime return priceMax. -/
theorem C6_no_config_validation (c : Config) (m : PriceMethod) (rows : List Entity)
    (h : c.priceMax ≤ c.priceMin) :
    etsClearingPrice c m rows = c.priceMax := by
  cases m <;>
  · simp only [etsClearingPrice, clearingPrice, clamp]
    exact clip_eq_hi_of_le _ _ _ h

/-- Witness for C6 at a concrete degenerate configuration. -/
theorem C6_witness :
    (0:ℚ) ≤ 10 ∧ etsClearingPrice ⟨10, 0, 2, 0, 0, 1⟩ .auctionClearing [] = 0 :=
  ⟨by norm_num,
    C6_no_config_validation ⟨10, 0, 2, 0, 0, 1⟩ .auctionClearing [] (by norm_num)⟩

/-- C7 (counterexample): with band [0,10] and spread 20, the single buyer
with net position 5 is quoted bid 12 > priceMax = 10: the clamp is not
applied last. -/
theorem C7_counterexample :
    ¬ (bidOf ⟨0, 10, 0, 20, 0, 1⟩ (prep [⟨5, 1, 0⟩]) ⟨5, 1, 0⟩ ≤ (10:ℚ)) := by
  norm_num [bidOf, p_bid, prep, bidQs, buyersOf, net_ets, net_ets0, alloc, intensity,
    zNorm, qMinL, qMaxL, epsNorm, clamp, clip, List.filter, min_def, max_def]

/-- C7 (amended): the clamp into [priceMin, priceMax] is applied before the
spread adjustment, so bids lie in [priceMin + spread/2, priceMax + spread/2]
and asks in [priceMin − spread/2, priceMax − spread/2]. -/
theorem C7_quotes_band_shifted_by_spread (c : Config) (qs : List ℚ) (q : ℚ)
    (h : c.priceMin ≤ c.priceMax) :
    (c.priceMin + c.spread / 2 ≤ p_bid c qs q ∧
      p_bid c qs q ≤ c.priceMax + c.spread / 2) ∧
    (c.priceMin - c.spread / 2 ≤ p_ask c qs q ∧
      p_ask c qs q ≤ c.priceMax - c.spread / 2) := by
  have hb1 := lo_le_clip
    (c.priceMin + (c.priceMax - c.priceMin) * (1/5 + 4/5 * zNorm qs q))
    c.priceMin c.priceMax h
  have hb2 := clip_le_hi
    (c.priceMin + (c.priceMax - c.priceMin) * (1/5 + 4/5 * zNorm qs q))
    c.priceMin c.priceMax
  unfold p_bid p_ask clamp
  refine ⟨⟨?_, ?_⟩, ?_, ?_⟩ <;> linarith

/-- Witness for C7 at a concrete configuration and quantity column. -/
theorem C7_witness :
    (0:ℚ) ≤ 10 ∧
      (((0:ℚ) + 20 / 2 ≤ p_bid ⟨0, 10, 0, 20, 0, 1⟩ [5] 5 ∧
        p_bid ⟨0, 10, 0, 20, 0, 1⟩ [5] 5 ≤ (10:ℚ) + 20 / 2) ∧
       ((0:ℚ) - 20 / 2 ≤ p_ask ⟨0, 10, 0, 20, 0, 1⟩ [5] 5 ∧
        p_ask ⟨0, 10, 0, 20, 0, 1⟩ [5] 5 ≤ (10:ℚ) - 20 / 2)) :=
  ⟨by norm_num,
    C7_quotes_band_shifted_by_spread ⟨0, 10, 0, 20, 0, 1⟩ [5] 5 (by norm_num)⟩

/-- C8: the smoothed allocation intensity of line 198 equals
entityIntensity + smoothing × (benchmark − entityIntensity); smoothing 1
gives the benchmark, smoothing 0 the entity's own intensity, and its
distance to the benchmark is non-increasing in the smoothing on [0,1]. -/
theorem C8_smoothing_algebra (b ei s s1 s2 : ℚ)
    (_hs1 : 0 ≤ s1) (h12 : s1 ≤ s2) (hs2 : s2 ≤ 1) :
    eiEff b ei s = ei + s * (b - ei) ∧
    eiEff b ei 1 = b ∧ eiEff b ei 0 = ei ∧
    |eiEff b ei s2 - b| ≤ |eiEff b ei s1 - b| := by
  refine ⟨by unfold eiEff; ring, by unfold eiEff; ring, by unfold eiEff; ring, ?_⟩
  have e1 : eiEff b ei s1 - b = (ei - b) * (1 - s1) := by unfold eiEff; ring
  have e2 : eiEff b ei s2 - b = (ei - b) * (1 - s2) := by unfold eiEff; ring
  rw [e1, e2, abs_mul, abs_mul]
  have h1 : |(1:ℚ) - s1| = 1 - s1 := abs_of_nonneg (by linarith)
  have h2 : |(1:ℚ) - s2| = 1 - s2 := abs_of_nonneg (by linarith)
  rw [h1, h2]
  exact mul_le_mul_of_nonneg_left (by linarith) (abs_nonneg _)

/-- Witness for C8 at benchmark 1, intensity 3, smoothings 1/4 ≤ 1/2. -/
theorem C8_witness :
    ((0:ℚ) ≤ 1/4 ∧ (1/4:ℚ) ≤ 1/2 ∧ (1/2:ℚ) ≤ 1) ∧
      (eiEff 1 3 (1/2) = 3 + 1/2 * (1 - 3) ∧
       eiEff 1 3 1 = 1 ∧ eiEff 1 3 0 = 3 ∧
       |eiEff 1 3 (1/2) - 1| ≤ |eiEff 1 3 (1/4) - 1|) :=
  ⟨⟨by norm_num, by norm_num, by norm_num⟩,
    C8_smoothing_algebra 1 3 (1/2) (1/4) (1/2) (by norm_num) (by norm_num) (by norm_num)⟩

/-- C9: with the transitional factor at its default 0, the sum of net
positions equals total emissions minus total free allocation, for every
row set (hence every benchmark assignment) and every smoothing. -/
theorem C9_net_position_sum (c : Config) (rows : List Entity) :
    (rows.map (net_ets { c with trf := 0 })).sum =
      (rows.map Entity.emissions).sum - (rows.map alloc).sum := by
  induction rows with
  | nil => simp
  | cons e es ih =>
      have hcond : ¬ (0 < ({ c with trf := 0 } : Config).trf ∧
          e.benchmark < intensity e) := fun hc => lt_irrefl 0 hc.1
      simp only [List.map_cons, List.sum_cons, net_ets, if_neg hcond, net_ets0, ih]
      ring

/-- C10: with priceMax > priceMin, every buyer's bid is at least
priceMin + (priceMax − priceMin)/5 + spread/2; a buyer whose net position
is the minimum of the buyer column is quoted exactly that floor; and with
spread ≥ 0 no bid lies in the bottom fifth of the band. -/
theorem C10_bid_floor (c : Config) (rows : List Entity) (e : Entity)
    (hp : c.priceMin < c.priceMax) (he : e ∈ buyersOf c rows) :
    (c.priceMin + (c.priceMax - c.priceMin) / 5 + c.spread / 2 ≤ bidOf c rows e) ∧
    (net_ets c e = qMinL (bidQs c rows) →
      bidOf c rows e = c.priceMin + (c.priceMax - c.priceMin) / 5 + c.spread / 2) ∧
    (0 ≤ c.spread → c.priceMin + (c.priceMax - c.priceMin) / 5 ≤ bidOf c rows e) := by
  have hq : net_ets c e ∈ bidQs c rows := List.mem_map_of_mem _ he
  have hlo : qMinL (bidQs c rows) ≤ net_ets c e := qMinL_le_of_mem hq
  have hhi : net_ets c e ≤ qMaxL (bidQs c rows) := le_qMaxL_of_mem hq
  have heps : (0:ℚ) < epsNorm := by norm_num [epsNorm]
  have hden : (0:ℚ) < qMaxL (bidQs c rows) - qMinL (bidQs c rows) + epsNorm := by
    linarith
  have hz0 : 0 ≤ zNorm (bidQs c rows) (net_ets c e) :=
    div_nonneg (by linarith) hden.le
  have hz1 : zNorm (bidQs c rows) (net_ets c e) < 1 := by
    rw [zNorm, div_lt_one hden]
    linarith
  have hrange : (0:ℚ) < c.priceMax - c.priceMin := by linarith
  have hinner_lo : c.priceMin + (c.priceMax - c.priceMin) / 5 ≤
      c.priceMin + (c.priceMax - c.priceMin) *
        (1/5 + 4/5 * zNorm (bidQs c rows) (net_ets c e)) := by
    nlinarith
  have hinner_hi : c.priceMin + (c.priceMax - c.priceMin) *
      (1/5 + 4/5 * zNorm (bidQs c rows) (net_ets c e)) ≤ c.priceMax := by
    nlinarith
  have hclamp : clamp c (c.priceMin + (c.priceMax - c.priceMin) *
      (1/5 + 4/5 * zNorm (bidQs c rows) (net_ets c e))) =
      c.priceMin + (c.priceMax - c.priceMin) *
        (1/5 + 4/5 * zNorm (bidQs c rows) (net_ets c e)) :=
    clip_eq_of_mem _ _ _ (by linarith) hinner_hi
  refine ⟨?_, ?_, ?_⟩
  · simp only [bidOf, p_bid]
    rw [hclamp]
    linarith
  · intro hmin
    have hz : zNorm (bidQs c rows) (net_ets c e) = 0 := by
      rw [zNorm, hmin, sub_self, zero_div]
    simp only [bidOf, p_bid, hz]
    have hbody : c.priceMin + (c.priceMax - c.priceMin) * (1/5 + 4/5 * 0) =
        c.priceMin + (c.priceMax - c.priceMin) / 5 := by ring
    rw [hbody]
    have hcl : clamp c (c.priceMin + (c.priceMax - c.priceMin) / 5) =
        c.priceMin + (c.priceMax - c.priceMin) / 5 :=
      clip_eq_of_mem _ _ _ (by linarith) (by linarith)
    rw [hcl]
  · intro hs
    simp only [bidOf, p_bid]
    rw [hclamp]
    linarith

/-- Witness for C10 at a single-buyer market on the band [0, 100]. -/
theorem C10_witness :
    ((0:ℚ) < 100 ∧
      (⟨5, 1, 0⟩ : Entity) ∈ buyersOf ⟨0, 100, 0, 0, 0, 1⟩ [⟨5, 1, 0⟩]) ∧
    (((0:ℚ) + (100 - 0) / 5 + 0 / 2 ≤
        bidOf ⟨0, 100, 0, 0, 0, 1⟩ [⟨5, 1, 0⟩] ⟨5, 1, 0⟩) ∧
      (net_ets ⟨0, 100, 0, 0, 0, 1⟩ ⟨5, 1, 0⟩ =
          qMinL (bidQs ⟨0, 100, 0, 0, 0, 1⟩ [⟨5, 1, 0⟩]) →
        bidOf ⟨0, 100, 0, 0, 0, 1⟩ [⟨5, 1, 0⟩] ⟨5, 1, 0⟩ =
          0 + (100 - 0) / 5 + 0 / 2) ∧
      ((0:ℚ) ≤ 0 →
        (0:ℚ) + (100 - 0) / 5 ≤ bidOf ⟨0, 100, 0, 0, 0, 1⟩ [⟨5, 1, 0⟩] ⟨5, 1, 0⟩)) :=
  ⟨⟨by norm_num,
      by norm_num [buyersOf, net_ets, net_ets0, alloc, intensity, List.filter]⟩,
    C10_bid_floor ⟨0, 100, 0, 0, 0, 1⟩ [⟨5, 1, 0⟩] ⟨5, 1, 0⟩ (by norm_num)
      (by norm_num [buyersOf, net_ets, net_ets0, alloc, intensity, List.filter])⟩

end ETS
